import Mathlib

/-!
Shallow embedding of the stimulus/judgment engine of the 3D perspective
N-back trainer (`src/src/App.svelte`).

Attribute values ("red", "cube", "left", ...) are the JavaScript string
literals of the source, embedded as `String`.  JavaScript `Record`s are
embedded as association lists, JavaScript numbers holding integral values
as `Int`/`Nat`, and the one fractional computation (block accuracy) as `ℚ`.
`Math.random()`-driven draws are embedded as a tape of natural numbers
(`List Nat`): `Math.floor(Math.random() * n)` reads one tape cell `t` and
yields `t % n` (every value in `[0, n)` is realizable, and the result is
in range exactly as in the source), a boolean coin reads one cell and
tests a parity / threshold condition.  Loops whose iteration count depends
on the random source consume the tape recursively and return `none` when
the (finite) tape is exhausted, so `some` results correspond exactly to
terminating runs of the source loops.
-/

namespace RrtFluency3d

/-- The color domain of the source (`COLORS`). -/
def COLORS : List String := ["red", "blue", "green"]

/-- The shape domain of the source (`SHAPES`). -/
def SHAPES : List String := ["cube", "sphere", "tetrahedron"]

/-- The size domain of the source (`SIZES`). -/
def SIZES : List String := ["small", "medium", "large"]

/-- The position domain of the source (`POSITIONS`). -/
def POSITIONS : List String := ["left", "center", "right"]

/-- The stroop word list of the source (`STROOP_WORDS`). -/
def STROOP_WORDS : List String := ["RED", "BLUE", "GREEN"]

/-- `BLOCK_SIZE` of the source. -/
def BLOCK_SIZE : Nat := 20

/-- One generated stimulus (`interface Stimulus` of the source). -/
structure Stimulus where
  color : String
  backColor : String
  netColors : List String
  shape : String
  size : String
  position : String
  id : Int
  stroopText : String
  stroopInk : String
  observerPos : String
deriving DecidableEq, Repr, Inhabited

/-- One persisted session record (`interface GameHistory` of the source). -/
structure GameHistory where
  date : String
  fullDate : String
  score : Int
  accuracy : Int
  maxNBack : Nat
  perspectiveMode : Bool
  perspectiveType : String
  activeRules : List String
deriving DecidableEq, Repr

/-- A symbolic perspective mapping: the source's
`Record<string, Record<string, string>>` as an association list from rule
name to an association list from raw value to perceived value. -/
abbrev PerspMapping : Type := List (String × List (String × String))

/-- The module-level mutable state of the source component, restricted to
the variables the stimulus/judgment engine reads or writes (rendering,
chart and scheduler handles are out of scope).  Field initializers are the
source's initial values. -/
structure GameState where
  isPlaying : Bool := false
  score : Int := 0
  activeRules : List String := ["color", "shape"]
  perspectiveMode : Bool := false
  perspectiveType : String := "symbolic"
  spatialType : String := "rotation"
  showStroop : Bool := true
  distractorsEnabled : Bool := false
  controlSwapEnabled : Bool := false
  useTimer : Bool := true
  gameDurationSeconds : Int := 60
  timeLeftSeconds : Int := 60
  /-- models `gameTimerInterval !== undefined` (a countdown interval is armed) -/
  timerStarted : Bool := false
  nBack : Nat := 1
  autoProgress : Bool := true
  blockTurnCount : Nat := 0
  blockMistakes : Nat := 0
  totalMistakes : Nat := 0
  totalTurns : Nat := 0
  lastStroopText : String := ""
  hasResponded : Bool := false
  isSwapped : Bool := false
  perspectiveMapping : PerspMapping := []
  currentRule : String := "color"
  stimulusHistory : List Stimulus := []
  currentStimulus : Option Stimulus := none
  feedbackMsg : String := ""
  feedbackColor : String := ""
  levelUpMsg : String := ""
deriving DecidableEq, Repr

/-- `flashFeedback(msg, colorClass)` of the source, minus the timed clear
(the transient reset does not interact with any claim). -/
def flashFeedback (msg colorClass : String) (s : GameState) : GameState :=
  { s with feedbackMsg := msg, feedbackColor := colorClass }

/-! ### Perspective mapper (`generateCyclicMapping`, `getTransformedValue`) -/

/-- The fixed-point check of the `while` loop in `generateCyclicMapping`:
`isValid` is true iff no index has `values[i] === shuffled[i]`. -/
def isValidShuffle (values shuffled : List String) : Bool :=
  (List.range values.length).all fun i => values.getD i "" != shuffled.getD i ""

/-- The rejection loop of `generateCyclicMapping`: `tries k` is the random
shuffle produced by the `k`-th iteration of the `while` loop (in the source
`[...values].sort(() => Math.random() - 0.5)`, which always yields a
permutation of `values`); the loop keeps the first valid shuffle.  `fuel`
bounds the number of iterations; `none` models a run that has not yet
terminated after `fuel` rejections. -/
def genLoop (values : List String) (tries : Nat → List String) :
    Nat → Nat → Option (List String)
  | 0, _ => none
  | fuel + 1, k =>
    if isValidShuffle values (tries k) then some (tries k)
    else genLoop values tries fuel (k + 1)

/-- `generateCyclicMapping(values)`: the returned `Record` maps
`values[i]` to `shuffled[i]`, embedded as the association list
`values.zip shuffled` (for duplicate-free `values` the two readings of a
`Record` literal coincide). -/
def generateCyclicMapping (values : List String) (tries : Nat → List String)
    (fuel : Nat) : Option (List (String × String)) :=
  (genLoop values tries fuel 0).map fun shuffled => values.zip shuffled

/-- Reading a `Record<string,string>` at a key, with the raw value as the
fallback used by `getTransformedValue` for missing entries. -/
def applyMap (m : List (String × String)) (v : String) : String :=
  (m.lookup v).getD v

/-- Dynamic attribute access `stim[rule]` of the source. -/
def stimAttr (stim : Stimulus) (rule : String) : String :=
  if rule = "color" then stim.color
  else if rule = "shape" then stim.shape
  else if rule = "size" then stim.size
  else if rule = "position" then stim.position
  else ""

/-- `getTransformedValue(stim, rule)` of the source.  The perspective
configuration and the session mapping are read from the game state, as the
source reads them from module-level variables. -/
def getTransformedValue (s : GameState) (stim : Stimulus) (rule : String) :
    String :=
  if s.perspectiveMode = false then stimAttr stim rule
  else if s.perspectiveType = "symbolic" then
    if stim.observerPos = "me" then stimAttr stim rule
    else
      match s.perspectiveMapping.lookup rule with
      | some m => applyMap m (stimAttr stim rule)
      | none => stimAttr stim rule
  else if s.perspectiveType = "spatial" then
    if stim.observerPos = "me" then stimAttr stim rule
    else if rule = "position" then
      if stim.position = "left" then "right"
      else if stim.position = "right" then "left"
      else "center"
    else if rule = "color" then stim.backColor
    else stimAttr stim rule
  else stimAttr stim rule

/-- Lexicographic comparison of character lists by code point, used to
embed sorting a two-element list of attribute-value strings. -/
def charListLt : List Char → List Char → Bool
  | [], [] => false
  | [], _ :: _ => true
  | _ :: _, [] => false
  | c :: cs, d :: ds =>
    if c.toNat < d.toNat then true
    else if d.toNat < c.toNat then false
    else charListLt cs ds

/-- String comparison on the underlying character lists. -/
def strLt (x y : String) : Bool := charListLt x.data y.data

/-- Modelled from the spec: the "object" spatial match strategy for the
`color` rule is absent from the provided source (the spec marks the
spatial match strategy axis `view|object` as belonging to a second variant
of the component only; the provided `getTransformedValue` implements the
`view` strategy).  Per the spec it "returns an order-independent signature
of the unordered pair \x7bcolor, backColor\x7d (e.g. sort the two values and
join)": here the two values sorted lexicographically and joined with a
separator. -/
def objectStrategyColorValue (stim : Stimulus) : String :=
  if strLt stim.backColor stim.color then
    stim.backColor ++ "|" ++ stim.color
  else
    stim.color ++ "|" ++ stim.backColor

/-! ### Stimulus generator (`generateStimulus`) -/

/-- Read one cell of the random tape. -/
def draw (tape : List Nat) : Option (Nat × List Nat) :=
  match tape with
  | [] => none
  | t :: ts => some (t, ts)

/-- The `while (backColor === color)` resampling loop: keep drawing a
color until it differs from `color`. -/
def pickBackColor (color : String) : List Nat → Option (String × List Nat)
  | [] => none
  | t :: ts =>
    let c := COLORS.getD (t % COLORS.length) ""
    if c = color then pickBackColor color ts else some (c, ts)

/-- `Array(6).fill("").map(() => random color)`: draw `n` colors. -/
def drawColorList : Nat → List Nat → Option (List String × List Nat)
  | 0, tape => some ([], tape)
  | _ + 1, [] => none
  | n + 1, t :: ts =>
    match drawColorList n ts with
    | some (cs, rest) => some (COLORS.getD (t % COLORS.length) "" :: cs, rest)
    | none => none

/-- The stroop-word selection of `generateStimulus`: one uniform draw,
redrawn once when it equals the previous turn's word (`lastStroopText`). -/
def drawStroop (last : String) (tape : List Nat) :
    Option (String × List Nat) := do
  let (t1, tape) ← draw tape
  let w1 := STROOP_WORDS.getD (t1 % STROOP_WORDS.length) ""
  if w1 = last then do
    let (t2, tape) ← draw tape
    pure (STROOP_WORDS.getD (t2 % STROOP_WORDS.length) "", tape)
  else
    pure (w1, tape)

/-- The `vary ? DOMAIN[random] : default` pattern used for shape, size
and position: one uniform draw when the attribute varies, the neutral
default (and no draw) otherwise. -/
def drawFrom (values : List String) (dflt : String) (vary : Bool)
    (tape : List Nat) : Option (String × List Nat) :=
  if vary then
    match tape with
    | [] => none
    | t :: ts => some (values.getD (t % values.length) "", ts)
  else some (dflt, tape)

/-- The spatial-mode shape restriction block of `generateStimulus`:
cutout flips a coin between cube and sphere (`Math.random() > 0.5`,
embedded as a parity test on one tape cell); the other spatial styles
force a cube; outside spatial mode the drawn shape stands. -/
def spatialShapeOverride (pm : Bool) (pt st shape0 : String)
    (tape : List Nat) : Option (String × List Nat) :=
  if pm = true ∧ pt = "spatial" then
    if st = "cutout" then
      match tape with
      | [] => none
      | t :: ts => some ((if t % 2 = 0 then "cube" else "sphere"), ts)
    else some ("cube", tape)
  else some (shape0, tape)

/-- `Math.random() > 0.5 ? "me" : "opposite"` on one tape cell. -/
def drawObserver (tape : List Nat) : Option (String × List Nat) :=
  match tape with
  | [] => none
  | t :: ts => some ((if t % 2 = 0 then "me" else "opposite"), ts)

/-- `generateStimulus()` of the source.  `now` is `Date.now()` (the
stimulus `id`); configuration and `lastStroopText` are read from the game
state.  The caller (`nextTurn`) records the returned word as the new
`lastStroopText`, which the source does by mutation inside this
function. -/
def generateStimulus (s : GameState) (now : Int) (tape : List Nat) :
    Option (Stimulus × List Nat) := do
  let (t, tape) ← draw tape
  let color := COLORS.getD (t % COLORS.length) ""
  let (backColor, tape) ← pickBackColor color tape
  let (net0, tape) ← drawColorList 6 tape
  let netColors := (net0.set 2 color).set 5 backColor
  let (shape0, tape) ← drawFrom SHAPES "cube"
    (s.activeRules.contains "shape" || s.distractorsEnabled) tape
  let (shape1, tape) ← spatialShapeOverride s.perspectiveMode
    s.perspectiveType s.spatialType shape0 tape
  -- spatial dual-color modes force a cube again
  let shape :=
    if s.perspectiveMode = true ∧ s.perspectiveType = "spatial" ∧
        s.activeRules.contains "color" = true ∧
        (s.spatialType = "rotation" ∨ s.spatialType = "folding" ∨
          s.spatialType = "instant") then
      "cube"
    else shape1
  let (size, tape) ← drawFrom SIZES "medium"
    (s.activeRules.contains "size" || s.distractorsEnabled) tape
  let (position, tape) ← drawFrom POSITIONS "center"
    (s.activeRules.contains "position" || s.distractorsEnabled) tape
  let (observerPos, tape) ← drawObserver tape
  let (stroopText, tape) ← drawStroop s.lastStroopText tape
  let (tInk, tape) ← draw tape
  let stroopInk := COLORS.getD (tInk % COLORS.length) ""
  pure
    ({ color := color, backColor := backColor, netColors := netColors,
       shape := shape, size := size, position := position, id := now,
       stroopText := stroopText, stroopInk := stroopInk,
       observerPos := observerPos }, tape)

/-! ### Session state machine -/

/-- `checkProgression()` of the source: block-level N-back
auto-progression.  Block accuracy is computed in `ℚ`, matching the
source's floating-point expression exactly on these integral inputs. -/
def checkProgression (s : GameState) : GameState :=
  if s.autoProgress = false ∨ s.blockTurnCount < BLOCK_SIZE ∨
      s.useTimer = true then s
  else
    let accuracy : ℚ :=
      (((s.blockTurnCount : ℚ) - (s.blockMistakes : ℚ)) /
        (s.blockTurnCount : ℚ)) * 100
    let s1 :=
      if 80 ≤ accuracy then
        flashFeedback "LEVEL UP!" "text-accent"
          { s with nBack := s.nBack + 1,
                   levelUpMsg := "Awesome! Level Up: N=" ++
                     toString (s.nBack + 1) }
      else if accuracy < 50 ∧ 1 < s.nBack then
        flashFeedback "Level Down" "text-red-500"
          { s with nBack := s.nBack - 1,
                   levelUpMsg := "Too fast? Level Down: N=" ++
                     toString (s.nBack - 1) }
      else
        { s with levelUpMsg := "Maintaining Level: N=" ++ toString s.nBack ++
            " (" ++ toString (round accuracy) ++ "%)" }
    { s1 with blockTurnCount := 0, blockMistakes := 0 }

/-- `checkMissedTarget()` of the source: charge a miss when the expiring
turn was judgeable and went unanswered. -/
def checkMissedTarget (s : GameState) : GameState :=
  if s.nBack < s.stimulusHistory.length ∧ s.hasResponded = false then
    flashFeedback "Too Slow!" "text-red-500"
      { s with score := s.score - 5, totalMistakes := s.totalMistakes + 1,
               blockMistakes := s.blockMistakes + 1 }
  else s

/-- `startTimer()` of the source, minus the interval scheduling itself. -/
def startTimer (s : GameState) : GameState :=
  { s with timeLeftSeconds := s.gameDurationSeconds, timerStarted := true }

/-- `nextTurn()` of the source.  The per-turn advance timer re-arming is
out of scope (external scheduler); everything else is embedded in source
order.  `Math.random() < 0.35` for the control swap is embedded as a
threshold test on one tape cell. -/
def nextTurn (now : Int) (tape : List Nat) (s : GameState) :
    Option (GameState × List Nat) :=
  if s.isPlaying = false then some (s, tape)
  else do
    let s := checkMissedTarget s
    let s := checkProgression s
    let (sw, tape) ←
      if s.controlSwapEnabled then do
        let (t, tape) ← draw tape
        pure ((t % 100 < 35 : Bool), tape)
      else
        pure (false, tape)
    let s := { s with isSwapped := sw }
    let (tRule, tape) ← draw tape
    let currentRule := s.activeRules.getD (tRule % s.activeRules.length) ""
    let s := { s with currentRule := currentRule }
    let (stim, tape) ← generateStimulus s now tape
    let s :=
      { s with stimulusHistory := s.stimulusHistory ++ [stim],
               currentStimulus := some stim,
               lastStroopText := stim.stroopText }
    let s :=
      if s.useTimer = true ∧ s.timerStarted = false ∧
          s.nBack < s.stimulusHistory.length then
        startTimer s
      else s
    pure
      ({ s with totalTurns := s.totalTurns + 1,
                blockTurnCount := s.blockTurnCount + 1,
                hasResponded := false }, tape)

/-- The spatial-mode rule sanitation at the top of `startGame()` (also
performed by `loadSettings()`): strip "shape" and "size", fall back to
`["color"]` when that empties the set. -/
def sanitizeRules (rules : List String) : List String :=
  let ar := rules.filter fun r => r != "shape" && r != "size"
  if ar.length = 0 then ["color"] else ar

/-- `startGame()` of the source.  `freshMapping` stands for the session
mapping built by `scramblePerspectiveRules()` (one `generateCyclicMapping`
result per attribute domain, verified separately); `now`/`tape` feed the
immediate first `nextTurn()` call. -/
def startGame (freshMapping : PerspMapping) (now : Int) (tape : List Nat)
    (s : GameState) : Option (GameState × List Nat) :=
  let s :=
    if s.perspectiveMode = true ∧ s.perspectiveType = "spatial" then
      { s with activeRules := sanitizeRules s.activeRules }
    else s
  if s.activeRules.length = 0 then
    some (flashFeedback "Select Rules First!" "text-red-500" s, tape)
  else
    let s :=
      if s.perspectiveMode then { s with perspectiveMapping := freshMapping }
      else s
    let s :=
      { s with isPlaying := true, score := 0, totalMistakes := 0,
               blockMistakes := 0, totalTurns := 0, blockTurnCount := 0,
               stimulusHistory := [], hasResponded := false,
               timerStarted := false,
               timeLeftSeconds := s.gameDurationSeconds }
    nextTurn now tape s

/-- `stopGame()` of the source, minus timer-handle cancellation. -/
def stopGame (s : GameState) : GameState :=
  flashFeedback "Stopped" "text-accent"
    { s with isPlaying := false, timerStarted := false, levelUpMsg := "" }

/-! ### Judgment evaluator (`handleInput`) -/

/-- The speed bonus of a correct response:
`Math.max(0, Math.min(10, Math.floor((2000 - reactionTime) / 150)))` with
`reactionTime = now - id`. -/
def speedBonus (now id : Int) : Int :=
  max 0 (min 10 ((2000 - (now - id)).fdiv 150))

/-- The ground-truth comparison of `handleInput`: transformed current
value versus transformed N-back value, then agreement with the declared
action. -/
def judgmentCorrect (s : GameState) (action : String) : Bool :=
  let currentStim :=
    s.stimulusHistory.getD (s.stimulusHistory.length - 1) default
  let targetStim :=
    s.stimulusHistory.getD (s.stimulusHistory.length - 1 - s.nBack) default
  let val1 := getTransformedValue s currentStim s.currentRule
  let val2 := getTransformedValue s targetStim s.currentRule
  let isMatch := val1 == val2
  if action = "match" then isMatch else !isMatch

/-- The source's feedback label for an accepted response. -/
def judgmentFeedback (s : GameState) (action : String) : String :=
  if action = "match" then
    if judgmentCorrect s action then "Correct!" else "False Alarm!"
  else
    if judgmentCorrect s action then "Correct Rejection!" else "Miss!"

/-- `handleInput(action)` of the source.  `now` is `Date.now()` at
response time; the 500 ms re-arm of the advance timer is out of scope. -/
def handleInput (now : Int) (action : String) (s : GameState) : GameState :=
  if s.isPlaying = false ∨ s.stimulusHistory.length ≤ s.nBack ∨
      s.hasResponded = true then s
  else
    let s1 := { s with hasResponded := true }
    let correct := judgmentCorrect s1 action
    if correct then
      let curId := (s1.currentStimulus.map Stimulus.id).getD 0
      let sb := speedBonus now curId
      let s2 := { s1 with score := s1.score + 10 + (s1.nBack : Int) * 5 + sb }
      if 5 < sb then
        flashFeedback ("FAST! +" ++ toString sb) "text-green-500" s2
      else
        flashFeedback "Correct!" "text-green-500" s2
    else
      let s2 :=
        { s1 with totalMistakes := s1.totalMistakes + 1,
                  blockMistakes := s1.blockMistakes + 1,
                  score := s1.score - 5 }
      flashFeedback
        (if judgmentFeedback s1 action = "Miss!" then "Missed!"
         else "Incorrect!") "text-red-500" s2

/-- `manualLevelChange(delta)` of the source. -/
def manualLevelChange (delta : Int) (s : GameState) : GameState :=
  let newLevel := (s.nBack : Int) + delta
  if 1 ≤ newLevel then
    { s with nBack := newLevel.toNat, blockTurnCount := 0, blockMistakes := 0 }
  else s

/-! ### Session end and persistence (`endGame`, `saveHistory`) -/

/-- The final-accuracy expression of `endGame`:
`totalTurns > 0 ? ((totalTurns - totalMistakes) / totalTurns) * 100 : 0`. -/
def endGameAccuracy (s : GameState) : ℚ :=
  if 0 < s.totalTurns then
    (((s.totalTurns : ℚ) - (s.totalMistakes : ℚ)) / (s.totalTurns : ℚ)) * 100
  else 0

/-- `saveHistory()` of the source: append one session record to the
persisted log, evicting the oldest once the log exceeds 20 entries.
`d`/`fd` are the formatted date strings (out-of-scope `Date`
formatting). -/
def saveHistory (d fd : String) (hist : List GameHistory) (s : GameState) :
    List GameHistory :=
  if s.totalTurns = 0 then hist
  else
    let accuracy : Int :=
      round ((((s.totalTurns : ℚ) - (s.totalMistakes : ℚ)) /
        (s.totalTurns : ℚ)) * 100)
    let entry : GameHistory :=
      { date := d, fullDate := fd, score := s.score, accuracy := accuracy,
        maxNBack := s.nBack, perspectiveMode := s.perspectiveMode,
        perspectiveType := s.perspectiveType,
        activeRules := s.activeRules }
    let l := hist ++ [entry]
    if 20 < l.length then l.drop 1 else l

/-- `endGame(timedOut)` of the source, returning the new state and the
new persisted log; timer-handle cancellation is out of scope. -/
def endGame (timedOut : Bool) (d fd : String) (hist : List GameHistory)
    (s : GameState) : GameState × List GameHistory :=
  let s := { s with isPlaying := false, timerStarted := false }
  let accuracy := endGameAccuracy s
  let isSuccess := 80 ≤ accuracy
  let s :=
    if timedOut = true ∧ s.autoProgress = true ∧ 0 < s.totalTurns then
      if isSuccess then
        flashFeedback "LEVEL UP!" "text-green-500"
          { s with nBack := s.nBack + 1,
                   levelUpMsg := "TIME UP! SUCCESS! N-Back Level Up to " ++
                     toString (s.nBack + 1) ++ " (" ++
                     toString (round accuracy) ++ "%)" }
      else if 1 < s.nBack ∧ accuracy < 50 then
        flashFeedback "Level Down" "text-red-500"
          { s with nBack := s.nBack - 1,
                   levelUpMsg := "TIME UP! Level Down to " ++
                     toString (s.nBack - 1) ++ " (" ++
                     toString (round accuracy) ++ "%)" }
      else
        flashFeedback "Time Expired" "text-accent"
          { s with levelUpMsg := "TIME UP! Maintaining N=" ++
              toString s.nBack ++ " (" ++ toString (round accuracy) ++ "%)" }
    else
      flashFeedback "Game Ended" "text-accent"
        { s with levelUpMsg := "GAME ENDED. Final Accuracy: " ++
            toString (round accuracy) ++ "%" }
  (s, if timedOut then saveHistory d fd hist s else hist)

/-! ### Helper lemmas -/

theorem charListLt_asymm :
    ∀ {x y : List Char}, charListLt x y = true → charListLt y x = false := by
  intro x
  induction x with
  | nil =>
    intro y h
    cases y with
    | nil => simp [charListLt] at h
    | cons d ds => simp [charListLt]
  | cons c cs ih =>
    intro y h
    cases y with
    | nil => simp [charListLt] at h
    | cons d ds =>
      simp only [charListLt] at h ⊢
      rcases Nat.lt_trichotomy c.toNat d.toNat with hlt | heq | hgt
      · rw [if_neg (by omega), if_pos hlt]
      · rw [if_neg (by omega), if_neg (by omega)] at h
        rw [if_neg (by omega), if_neg (by omega)]
        exact ih h
      · rw [if_neg (by omega), if_pos hgt] at h
        simp at h

theorem charListLt_conn :
    ∀ {x y : List Char}, charListLt x y = false → charListLt y x = false →
      x = y := by
  intro x
  induction x with
  | nil =>
    intro y h1 h2
    cases y with
    | nil => rfl
    | cons d ds => simp [charListLt] at h1
  | cons c cs ih =>
    intro y h1 h2
    cases y with
    | nil => simp [charListLt] at h2
    | cons d ds =>
      simp only [charListLt] at h1 h2
      rcases Nat.lt_trichotomy c.toNat d.toNat with hlt | heq | hgt
      · rw [if_pos hlt] at h1; simp at h1
      · rw [if_neg (by omega), if_neg (by omega)] at h1
        rw [if_neg (by omega), if_neg (by omega)] at h2
        have hcd : c = d := by
          apply Char.eq_of_val_eq
          apply UInt32.eq_of_toBitVec_eq
          apply BitVec.eq_of_toNat_eq
          exact heq
        rw [hcd, ih h1 h2]
      · rw [if_pos hgt] at h2; simp at h2

theorem strLt_asymm {x y : String} (h : strLt x y = true) :
    strLt y x = false :=
  charListLt_asymm h

theorem strLt_conn {x y : String} (h1 : strLt x y = false)
    (h2 : strLt y x = false) : x = y := by
  cases x with
  | mk dx =>
    cases y with
    | mk dy =>
      have : dx = dy := charListLt_conn h1 h2
      rw [this]

theorem pairJoin_comm (x y : String) :
    (if strLt y x then y ++ "|" ++ x else x ++ "|" ++ y) =
      (if strLt x y then x ++ "|" ++ y else y ++ "|" ++ x) := by
  cases hxy : strLt x y with
  | true => rw [strLt_asymm hxy]; simp
  | false =>
    cases hyx : strLt y x with
    | true => simp [hyx, hxy]
    | false => rw [strLt_conn hxy hyx]

/-- `genLoop` only ever returns one of the tried shuffles, and only a
valid (fixed-point-free) one. -/
theorem genLoop_some {values : List String} {tries : Nat → List String} :
    ∀ {fuel k : Nat} {shuffled : List String},
      genLoop values tries fuel k = some shuffled →
      (∃ j, shuffled = tries j) ∧ isValidShuffle values shuffled = true := by
  intro fuel
  induction fuel with
  | zero => intro k shuffled h; simp [genLoop] at h
  | succ n ih =>
    intro k shuffled h
    simp only [genLoop] at h
    split_ifs at h with hv
    · cases h; exact ⟨⟨k, rfl⟩, hv⟩
    · exact ih h

/-- The fixed-point check, read back as a pointwise statement. -/
theorem isValidShuffle_iff {values shuffled : List String}
    (h : isValidShuffle values shuffled = true) :
    ∀ i, i < values.length → values.getD i "" ≠ shuffled.getD i "" := by
  intro i hi
  have := List.all_eq_true.mp h i (List.mem_range.mpr hi)
  simpa using this

/-- Looking up the `i`-th key of a duplicate-free zipped association list
finds the `i`-th value. -/
theorem lookup_zip_get :
    ∀ (vs ss : List String), vs.Nodup → vs.length = ss.length →
      ∀ (i : Nat) (hiv : i < vs.length) (his : i < ss.length),
        (vs.zip ss).lookup (vs.get ⟨i, hiv⟩) = some (ss.get ⟨i, his⟩) := by
  intro vs
  induction vs with
  | nil => intro ss _ _ i hiv; simp at hiv
  | cons v vt ih =>
    intro ss hnd hlen i hiv his
    cases ss with
    | nil => simp at hlen
    | cons s st =>
      cases i with
      | zero => simp [List.lookup]
      | succ j =>
        have hjv : j < vt.length := by simpa using hiv
        have hvnotin : v ∉ vt := (List.nodup_cons.mp hnd).1
        have hne : vt.get ⟨j, hjv⟩ ≠ v := by
          intro he
          exact hvnotin (he ▸ vt.get_mem _ _)
        have hbeq : (vt.get ⟨j, hjv⟩ == v) = false :=
          beq_eq_false_iff_ne.mpr hne
        simp only [List.zip_cons_cons, List.get_cons_succ, List.lookup, hbeq]
        exact ih st (List.nodup_cons.mp hnd).2 (by simpa using hlen) j
          hjv (by simpa using his)

/-! ### Claim theorems -/

/-- C1: Under spatial perspective with the "object" match strategy, the
transformed color value is an order-independent signature of the
unordered pair of front and back color: any two stimuli whose color and
backColor are swaps of each other receive equal transformed values, so
the pair is judged a match. -/
theorem objectStrategy_unordered_pair (A B : Stimulus)
    (h1 : A.color = B.backColor) (h2 : A.backColor = B.color) :
    objectStrategyColorValue A = objectStrategyColorValue B := by
  unfold objectStrategyColorValue
  rw [h1, h2]
  exact pairJoin_comm B.backColor B.color

/-- A stimulus showing front red / back green. -/
def stimRedGreen : Stimulus :=
  { color := "red", backColor := "green",
    netColors := ["red", "red", "red", "red", "red", "green"],
    shape := "cube", size := "medium", position := "center", id := 0,
    stroopText := "RED", stroopInk := "red", observerPos := "me" }

/-- The same cube seen with the two face colors swapped. -/
def stimGreenRed : Stimulus :=
  { stimRedGreen with color := "green", backColor := "red" }

theorem objectStrategy_unordered_pair_witness :
    objectStrategyColorValue stimRedGreen =
      objectStrategyColorValue stimGreenRed :=
  objectStrategy_unordered_pair stimRedGreen stimGreenRed rfl rfl

/-- C2: whenever `generateCyclicMapping` returns on a duplicate-free
input of length at least 2 (each shuffle attempt being a permutation of
the input, as `Array.prototype.sort` guarantees), the returned map sends
input values to input values, is injective and surjective on them, and
has no fixed point. -/
theorem generateCyclicMapping_derangement (values : List String)
    (tries : Nat → List String) (fuel : Nat) (m : List (String × String))
    (hnd : values.Nodup) (hlen : 2 ≤ values.length)
    (htries : ∀ k, (tries k).Perm values)
    (hret : generateCyclicMapping values tries fuel = some m) :
    (∀ v ∈ values, applyMap m v ∈ values) ∧
    (∀ v ∈ values, ∀ w ∈ values, applyMap m v = applyMap m w → v = w) ∧
    (∀ w ∈ values, ∃ v ∈ values, applyMap m v = w) ∧
    (∀ v ∈ values, applyMap m v ≠ v) := by
  simp only [generateCyclicMapping, Option.map_eq_some'] at hret
  obtain ⟨shuffled, hloop, hm⟩ := hret
  obtain ⟨⟨j, hj⟩, hvalid⟩ := genLoop_some hloop
  have hperm : shuffled.Perm values := hj ▸ htries j
  have hslen : values.length = shuffled.length := (hperm.length_eq).symm
  have hsnodup : shuffled.Nodup := hperm.nodup_iff.mpr hnd
  -- the map sends the i-th input value to the i-th shuffled value
  have hmap : ∀ (i : Nat) (hiv : i < values.length)
      (his : i < shuffled.length),
      applyMap m (values.get ⟨i, hiv⟩) = shuffled.get ⟨i, his⟩ := by
    intro i hiv his
    unfold applyMap
    rw [← hm, lookup_zip_get values shuffled hnd hslen i hiv his]
    rfl
  have hnofix : ∀ (i : Nat) (hiv : i < values.length)
      (his : i < shuffled.length),
      shuffled.get ⟨i, his⟩ ≠ values.get ⟨i, hiv⟩ := by
    intro i hiv his h
    have := isValidShuffle_iff hvalid i hiv
    rw [List.getD_eq_get values "" hiv, List.getD_eq_get shuffled "" his]
      at this
    exact this h.symm
  refine ⟨?_, ?_, ?_, ?_⟩
  · intro v hv
    obtain ⟨⟨i, hiv⟩, hget⟩ := List.mem_iff_get.mp hv
    rw [← hget, hmap i hiv (hslen ▸ hiv)]
    exact hperm.subset (shuffled.get_mem _ _)
  · intro v hv w hw he
    obtain ⟨⟨i, hiv⟩, hgi⟩ := List.mem_iff_get.mp hv
    obtain ⟨⟨k, hkv⟩, hgk⟩ := List.mem_iff_get.mp hw
    rw [← hgi, hmap i hiv (hslen ▸ hiv)] at he
    rw [← hgk, hmap k hkv (hslen ▸ hkv)] at he
    have : (⟨i, hslen ▸ hiv⟩ : Fin shuffled.length) = ⟨k, hslen ▸ hkv⟩ :=
      (List.Nodup.get_inj_iff hsnodup).mp he
    have hik : i = k := congrArg Fin.val this
    rw [← hgi, ← hgk]
    congr
  · intro w hw
    have hw' : w ∈ shuffled := hperm.symm.subset hw
    obtain ⟨⟨i, his⟩, hgi⟩ := List.mem_iff_get.mp hw'
    refine ⟨values.get ⟨i, hslen ▸ his⟩, values.get_mem _ _, ?_⟩
    rw [hmap i (hslen ▸ his) his, hgi]
  · intro v hv
    obtain ⟨⟨i, hiv⟩, hget⟩ := List.mem_iff_get.mp hv
    rw [← hget, hmap i hiv (hslen ▸ hiv)]
    exact hnofix i hiv (hslen ▸ hiv)

theorem generateCyclicMapping_derangement_witness :
    applyMap [("red", "blue"), ("blue", "green"), ("green", "red")]
        "red" ≠ "red" ∧
    applyMap [("red", "blue"), ("blue", "green"), ("green", "red")]
        "blue" ≠ "blue" ∧
    applyMap [("red", "blue"), ("blue", "green"), ("green", "red")]
        "green" ≠ "green" := by
  have h := generateCyclicMapping_derangement COLORS
    (fun _ => ["blue", "green", "red"]) 1
    [("red", "blue"), ("blue", "green"), ("green", "red")]
    (by decide) (by decide)
    (by
      intro k
      show (["blue", "green", "red"] : List String).Perm COLORS
      decide)
    (by decide)
  exact ⟨h.2.2.2 "red" (by decide), h.2.2.2 "blue" (by decide),
    h.2.2.2 "green" (by decide)⟩

/-- C3: a judgment is possible exactly when the game is running, the
history is longer than the N-back level, and no response was registered
this turn: outside that window `handleInput` is the identity on the state
(score, mistake counters, `hasResponded` and the history untouched), and
inside it a response is registered. -/
theorem handleInput_gate (now : Int) (action : String) (s : GameState) :
    (s.isPlaying = false ∨ s.stimulusHistory.length ≤ s.nBack ∨
        s.hasResponded = true →
      handleInput now action s = s) ∧
    (s.isPlaying = true → s.nBack < s.stimulusHistory.length →
        s.hasResponded = false →
      (handleInput now action s).hasResponded = true) := by
  constructor
  · intro h
    unfold handleInput
    rw [if_pos h]
  · intro hp hl hr
    unfold handleInput
    rw [if_neg (by
      push_neg
      exact ⟨by simp [hp], by omega, by simp [hr]⟩)]
    dsimp only
    split_ifs <;> rfl

/-- An idle state: the component's initial module-level values. -/
def idleState : GameState := {}

/-- A running state mid-session, two turns into a 1-back block. -/
def runningState : GameState :=
  { isPlaying := true, activeRules := ["color"], currentRule := "color",
    useTimer := false, autoProgress := false, nBack := 1,
    stimulusHistory := [stimRedGreen, stimRedGreen],
    currentStimulus := some stimRedGreen }

theorem handleInput_gate_witness :
    handleInput 0 "match" idleState = idleState ∧
    (handleInput 0 "match" runningState).hasResponded = true :=
  ⟨(handleInput_gate 0 "match" idleState).1 (Or.inl rfl),
   (handleInput_gate 0 "match" runningState).2 rfl (by decide) rfl⟩

/-- C4: an accepted correct response adds exactly
`10 + 5 * nBack + speedBonus` with the speed bonus clamped into
`[0, 10]` and computed from `now` minus the current stimulus's creation
id; an accepted incorrect response subtracts 5 and increments both
mistake counters. -/
theorem handleInput_scoring (now : Int) (action : String) (s : GameState)
    (cs : Stimulus) (hp : s.isPlaying = true)
    (hl : s.nBack < s.stimulusHistory.length) (hr : s.hasResponded = false)
    (hcs : s.currentStimulus = some cs) :
    (0 ≤ speedBonus now cs.id ∧ speedBonus now cs.id ≤ 10) ∧
    (judgmentCorrect s action = true →
      (handleInput now action s).score =
        s.score + 10 + (s.nBack : Int) * 5 + speedBonus now cs.id ∧
      (handleInput now action s).totalMistakes = s.totalMistakes ∧
      (handleInput now action s).blockMistakes = s.blockMistakes) ∧
    (judgmentCorrect s action = false →
      (handleInput now action s).score = s.score - 5 ∧
      (handleInput now action s).totalMistakes = s.totalMistakes + 1 ∧
      (handleInput now action s).blockMistakes = s.blockMistakes + 1) := by
  have hbounds : 0 ≤ speedBonus now cs.id ∧ speedBonus now cs.id ≤ 10 := by
    unfold speedBonus
    constructor
    · exact le_max_left 0 _
    · exact max_le (by norm_num) (min_le_left 10 _)
  have hgate : ¬(s.isPlaying = false ∨
      s.stimulusHistory.length ≤ s.nBack ∨ s.hasResponded = true) := by
    push_neg
    exact ⟨by simp [hp], by omega, by simp [hr]⟩
  refine ⟨hbounds, ?_, ?_⟩
  · intro hc
    unfold handleInput
    rw [if_neg hgate]
    dsimp only
    split_ifs with h1 h2
    · refine ⟨?_, rfl, rfl⟩
      show s.score + 10 + (s.nBack : Int) * 5 +
        speedBonus now ((Option.map Stimulus.id s.currentStimulus).getD 0) =
        s.score + 10 + (s.nBack : Int) * 5 + speedBonus now cs.id
      rw [hcs]
      rfl
    · refine ⟨?_, rfl, rfl⟩
      show s.score + 10 + (s.nBack : Int) * 5 +
        speedBonus now ((Option.map Stimulus.id s.currentStimulus).getD 0) =
        s.score + 10 + (s.nBack : Int) * 5 + speedBonus now cs.id
      rw [hcs]
      rfl
    · have h1' : judgmentCorrect s action = false := by
        cases hb : judgmentCorrect s action with
        | false => rfl
        | true => exact absurd hb h1
      rw [h1'] at hc
      cases hc
    · have h1' : judgmentCorrect s action = false := by
        cases hb : judgmentCorrect s action with
        | false => rfl
        | true => exact absurd hb h1
      rw [h1'] at hc
      cases hc
  · intro hc
    unfold handleInput
    rw [if_neg hgate]
    dsimp only
    split_ifs with h1 h2
    · have h1' : judgmentCorrect s action = true := h1
      rw [h1'] at hc
      cases hc
    · have h1' : judgmentCorrect s action = true := h1
      rw [h1'] at hc
      cases hc
    · exact ⟨rfl, rfl, rfl⟩
    · exact ⟨rfl, rfl, rfl⟩

/-- The running state with a 2-back level and three turns of history. -/
def runningState2 : GameState :=
  { runningState with
    nBack := 2
    stimulusHistory := [stimRedGreen, stimRedGreen, stimRedGreen] }

theorem handleInput_scoring_witness :
    (handleInput 100 "match" runningState2).score =
      runningState2.score + 30 ∧
    (handleInput 2000 "match" runningState2).score =
      runningState2.score + 20 ∧
    (handleInput 100 "non_match" runningState2).score =
      runningState2.score - 5 ∧
    (handleInput 100 "non_match" runningState2).totalMistakes =
      runningState2.totalMistakes + 1 ∧
    (handleInput 100 "non_match" runningState2).blockMistakes =
      runningState2.blockMistakes + 1 := by
  have hfast := (handleInput_scoring 100 "match" runningState2 stimRedGreen
    rfl (by decide) rfl rfl).2.1 (by decide)
  have hslow := (handleInput_scoring 2000 "match" runningState2 stimRedGreen
    rfl (by decide) rfl rfl).2.1 (by decide)
  have hwrong := (handleInput_scoring 100 "non_match" runningState2
    stimRedGreen rfl (by decide) rfl rfl).2.2 (by decide)
  refine ⟨?_, ?_, hwrong.1, hwrong.2.1, hwrong.2.2⟩
  · rw [hfast.1]; decide
  · rw [hslow.1]; decide

/-- C5: with auto-progress on, the countdown timer off and a full block
of `BLOCK_SIZE` turns, `checkProgression` raises the level on block
accuracy ≥ 80 %, lowers it on accuracy < 50 % when above level 1, holds
it otherwise, and resets the block counters, leaving score, mistake and
turn totals untouched; under any other condition it leaves the state
unchanged. -/
theorem checkProgression_spec (s : GameState) :
    (s.autoProgress = false ∨ s.blockTurnCount < BLOCK_SIZE ∨
        s.useTimer = true →
      checkProgression s = s) ∧
    (s.autoProgress = true → BLOCK_SIZE ≤ s.blockTurnCount →
        s.useTimer = false →
      (checkProgression s).blockTurnCount = 0 ∧
      (checkProgression s).blockMistakes = 0 ∧
      (checkProgression s).nBack =
        (if 80 ≤ (((s.blockTurnCount : ℚ) - (s.blockMistakes : ℚ)) /
            (s.blockTurnCount : ℚ)) * 100 then s.nBack + 1
         else if (((s.blockTurnCount : ℚ) - (s.blockMistakes : ℚ)) /
            (s.blockTurnCount : ℚ)) * 100 < 50 ∧ 1 < s.nBack then
           s.nBack - 1
         else s.nBack) ∧
      (checkProgression s).score = s.score ∧
      (checkProgression s).totalMistakes = s.totalMistakes ∧
      (checkProgression s).totalTurns = s.totalTurns ∧
      (checkProgression s).isPlaying = s.isPlaying) := by
  constructor
  · intro h
    unfold checkProgression
    rw [if_pos h]
  · intro ha hb ht
    unfold checkProgression
    rw [if_neg (by
      push_neg
      exact ⟨by simp [ha], by omega, by simp [ht]⟩)]
    dsimp only
    split_ifs <;> exact ⟨rfl, rfl, rfl, rfl, rfl, rfl, rfl⟩

/-- A full block at 95 % accuracy (1 mistake in 20 turns). -/
def blockUpState : GameState :=
  { runningState with
    autoProgress := true
    blockTurnCount := 20
    blockMistakes := 1 }

/-- A full block at 45 % accuracy (11 mistakes in 20), level 3. -/
def blockDownState : GameState :=
  { blockUpState with nBack := 3, blockMistakes := 11 }

/-- A full block at 65 % accuracy (7 mistakes in 20), level 2. -/
def blockHoldState : GameState :=
  { blockUpState with nBack := 2, blockMistakes := 7 }

/-- A partial block (5 turns). -/
def blockShortState : GameState :=
  { blockUpState with blockTurnCount := 5 }

theorem checkProgression_spec_witness :
    (checkProgression blockUpState).nBack = 2 ∧
    (checkProgression blockUpState).blockTurnCount = 0 ∧
    (checkProgression blockUpState).blockMistakes = 0 ∧
    (checkProgression blockDownState).nBack = 2 ∧
    (checkProgression blockHoldState).nBack = 2 ∧
    checkProgression blockShortState = blockShortState := by
  have hup := (checkProgression_spec blockUpState).2 rfl (by decide) rfl
  have hdown := (checkProgression_spec blockDownState).2 rfl (by decide) rfl
  have hhold := (checkProgression_spec blockHoldState).2 rfl (by decide) rfl
  have hshort := (checkProgression_spec blockShortState).1
    (Or.inr (Or.inl (by decide)))
  refine ⟨?_, hup.2.1, hup.1, ?_, ?_, hshort⟩
  · rw [hup.2.2.1]
    norm_num [blockUpState, runningState]
  · rw [hdown.2.2.1]
    rw [if_neg (by norm_num [blockDownState, blockUpState, runningState]),
      if_pos (by constructor <;>
        norm_num [blockDownState, blockUpState, runningState])]
    decide
  · rw [hhold.2.2.1]
    rw [if_neg (by norm_num [blockHoldState, blockUpState, runningState]),
      if_neg (by
        intro hcon
        have := hcon.1
        norm_num [blockHoldState, blockUpState, runningState] at this)]
    decide

theorem checkMissedTarget_activeRules (s : GameState) :
    (checkMissedTarget s).activeRules = s.activeRules := by
  unfold checkMissedTarget flashFeedback
  split_ifs <;> rfl

theorem checkProgression_activeRules (s : GameState) :
    (checkProgression s).activeRules = s.activeRules := by
  unfold checkProgression flashFeedback
  split_ifs with h
  · rfl
  · dsimp only
    split_ifs <;> rfl

/-- `nextTurn` never touches the active-rule set. -/
theorem nextTurn_activeRules (now : Int) (tape : List Nat) (s r : GameState)
    (tr : List Nat) (h : nextTurn now tape s = some (r, tr)) :
    r.activeRules = s.activeRules := by
  unfold nextTurn at h
  by_cases hp : s.isPlaying = false
  · rw [if_pos hp] at h
    cases h
    rfl
  · rw [if_neg hp] at h
    dsimp only at h
    split_ifs at h with hcs
    · simp only [Option.bind_eq_bind', Option.bind_eq_some,
        Option.some_bind', Option.pure_def, Option.some.injEq,
        Prod.mk.injEq] at h
      obtain ⟨⟨t1, tpa⟩, hd1, h⟩ := h
      obtain ⟨⟨t2, tpb⟩, hd2, h⟩ := h
      obtain ⟨⟨stim, tpc⟩, hgen, hr, htr⟩ := h
      rw [← hr]
      dsimp only
      split_ifs <;>
        simp [startTimer, checkMissedTarget_activeRules,
          checkProgression_activeRules]
    · simp only [Option.bind_eq_bind', Option.bind_eq_some,
        Option.some_bind', Option.pure_def, Option.some.injEq,
        Prod.mk.injEq] at h
      obtain ⟨⟨t2, tpb⟩, hd2, h⟩ := h
      obtain ⟨⟨stim, tpc⟩, hgen, hr, htr⟩ := h
      rw [← hr]
      dsimp only
      split_ifs <;>
        simp [startTimer, checkMissedTarget_activeRules,
          checkProgression_activeRules]

/-- The sanitized rule set is never empty and never contains "shape" or
"size". -/
theorem sanitizeRules_spec (rules : List String) :
    sanitizeRules rules ≠ [] ∧ "shape" ∉ sanitizeRules rules ∧
      "size" ∉ sanitizeRules rules := by
  unfold sanitizeRules
  dsimp only
  split_ifs with hlen
  · exact ⟨by simp, by simp, by simp⟩
  · refine ⟨?_, ?_, ?_⟩
    · intro hnil
      rw [hnil] at hlen
      exact hlen rfl
    · intro hmem
      have := (List.mem_filter.mp hmem).2
      simp at this
    · intro hmem
      have := (List.mem_filter.mp hmem).2
      simp at this

/-- C6: when the game is started with spatial perspective active, the
resulting active-rule set contains neither "shape" nor "size" and is
never empty (collapsing to exactly `["color"]` when stripping empties
it). -/
theorem startGame_spatial_rules (m : PerspMapping) (now : Int)
    (tape : List Nat) (s r : GameState) (tr : List Nat)
    (hpm : s.perspectiveMode = true) (hpt : s.perspectiveType = "spatial")
    (h : startGame m now tape s = some (r, tr)) :
    r.activeRules ≠ [] ∧ "shape" ∉ r.activeRules ∧
      "size" ∉ r.activeRules := by
  have hsan := sanitizeRules_spec s.activeRules
  unfold startGame at h
  rw [if_pos (show s.perspectiveMode = true ∧ s.perspectiveType = "spatial"
    from ⟨hpm, hpt⟩)] at h
  dsimp only at h
  split_ifs at h with h1 h2
  · exact absurd (List.length_eq_zero.mp h1) hsan.1
  · have hrr := nextTurn_activeRules now tape _ r tr h
    rw [hrr]
    exact hsan

/-- A pre-start configuration with spatial perspective and a rule set
still containing "shape". -/
def spatialConfigState : GameState :=
  { activeRules := ["color", "shape"], perspectiveMode := true,
    perspectiveType := "spatial", useTimer := false, autoProgress := false }

/-- Enough tape for one spatial turn: rule index, front color, back
color, six net colors, observer coin, stroop word, ink color. -/
def spatialStartTape : List Nat := [0, 0, 1, 0, 0, 0, 0, 0, 0, 0, 0, 0]

/-- The state produced by starting `spatialConfigState`. -/
def spatialStartRun : Option (GameState × List Nat) :=
  startGame [] 0 spatialStartTape spatialConfigState

theorem startGame_spatial_rules_witness :
    (spatialStartRun.getD ({}, [])).1.activeRules ≠ [] ∧
    "shape" ∉ (spatialStartRun.getD ({}, [])).1.activeRules ∧
    "size" ∉ (spatialStartRun.getD ({}, [])).1.activeRules :=
  startGame_spatial_rules [] 0 spatialStartTape spatialConfigState
    (spatialStartRun.getD ({}, [])).1 (spatialStartRun.getD ({}, [])).2
    rfl rfl rfl

/-- A running 1-back color session with no previous stroop word. -/
def stroopRunState : GameState :=
  { isPlaying := true, activeRules := ["color"], useTimer := false,
    autoProgress := false, nBack := 1 }

/-- Two turns of tape.  Per turn: rule index, front color, back color,
six net colors, observer coin, stroop word draw(s), ink color.  The
first turn draws stroop word 0 ("RED"); the second turn draws word 0
twice, so the single resample also yields "RED". -/
def stroopRepeatTape : List Nat :=
  [0, 0, 1, 0, 0, 0, 0, 0, 0, 0, 0, 0] ++
  [0, 0, 1, 0, 0, 0, 0, 0, 0, 0, 0, 0, 0]

/-- Two consecutive turns driven by `stroopRepeatTape`. -/
def stroopRepeatRun : Option (GameState × List Nat) :=
  (nextTurn 0 stroopRepeatTape stroopRunState).bind fun p =>
    nextTurn 1 p.2 p.1

/-- C7 counterexample: a reachable two-turn run in which the second
stimulus's stroopText equals the first one's ("RED" twice), refuting
"never equal to the immediately preceding stimulus's stroopText". -/
theorem stroop_repeat_reachable :
    (stroopRepeatRun.map fun p =>
      p.1.stimulusHistory.map fun st => st.stroopText) =
      some ["RED", "RED"] := by decide

/-- C7 amended: the stroop word is redrawn once when the first draw
equals the previous stimulus's word, so the generated word equals the
previous word exactly when the first draw and the one resample both
produce it (best-effort de-repeat, not a guarantee). -/
theorem drawStroop_resample (last : String) (t1 : Nat) (ts : List Nat)
    (w : String) (rest : List Nat)
    (h : drawStroop last (t1 :: ts) = some (w, rest)) :
    w = last ↔
      (STROOP_WORDS.getD (t1 % STROOP_WORDS.length) "" = last ∧ ts ≠ [] ∧
        STROOP_WORDS.getD (ts.headD 0 % STROOP_WORDS.length) "" = last) := by
  unfold drawStroop draw at h
  simp only [Option.bind_eq_bind', Option.some_bind'] at h
  by_cases h1 : STROOP_WORDS.getD (t1 % STROOP_WORDS.length) "" = last
  · rw [if_pos h1] at h
    cases ts with
    | nil => simp at h
    | cons t2 ts2 =>
      simp only [Option.bind_eq_bind', Option.some_bind',
        Option.pure_def, Option.some.injEq, Prod.mk.injEq] at h
      obtain ⟨hw, _⟩ := h
      rw [← hw]
      constructor
      · intro h2
        exact ⟨h1, by simp, by simpa using h2⟩
      · intro h2
        simpa using h2.2.2
  · rw [if_neg h1] at h
    simp only [Option.pure_def, Option.some.injEq, Prod.mk.injEq] at h
    obtain ⟨hw, _⟩ := h
    rw [← hw]
    constructor
    · intro h2
      exact absurd h2 h1
    · intro h2
      exact absurd h2.1 h1

theorem drawStroop_resample_witness :
    drawStroop "BLUE" [0, 1] = some ("RED", [1]) ∧
      ("RED" : String) ≠ "BLUE" :=
  ⟨rfl, fun he =>
    absurd ((drawStroop_resample "BLUE" 0 [1] "RED" [1] rfl).mp he).1
      (by decide)⟩

/-- The backColor resampling loop only ever returns a color different
from the front color. -/
theorem pickBackColor_ne (color : String) :
    ∀ (tape : List Nat) (c : String) (rest : List Nat),
      pickBackColor color tape = some (c, rest) → c ≠ color := by
  intro tape
  induction tape with
  | nil => intro c rest h; simp [pickBackColor] at h
  | cons t ts ih =>
    intro c rest h
    unfold pickBackColor at h
    dsimp only at h
    split_ifs at h with he
    · exact ih c rest h
    · simp only [Option.some.injEq, Prod.mk.injEq] at h
      rw [← h.1]
      exact he

/-- `drawColorList n` returns exactly `n` colors. -/
theorem drawColorList_length :
    ∀ (n : Nat) (tape : List Nat) (cs : List String) (rest : List Nat),
      drawColorList n tape = some (cs, rest) → cs.length = n := by
  intro n
  induction n with
  | zero =>
    intro tape cs rest h
    unfold drawColorList at h
    simp only [Option.some.injEq, Prod.mk.injEq] at h
    rw [← h.1]
    rfl
  | succ k ih =>
    intro tape cs rest h
    cases tape with
    | nil => simp [drawColorList] at h
    | cons t ts =>
      unfold drawColorList at h
      cases hrec : drawColorList k ts with
      | none => rw [hrec] at h; simp at h
      | some p =>
        rw [hrec] at h
        simp only [Option.some.injEq, Prod.mk.injEq] at h
        rw [← h.1]
        simp [ih ts p.1 p.2 (by rw [hrec])]

/-- C8: every stimulus returned by `generateStimulus` has a back color
different from its front color and a 6-entry cube net whose index 2 is
pinned to the front color and index 5 to the back color. -/
theorem generateStimulus_invariants (s : GameState) (now : Int)
    (tape rest : List Nat) (stim : Stimulus)
    (h : generateStimulus s now tape = some (stim, rest)) :
    stim.backColor ≠ stim.color ∧ stim.netColors.length = 6 ∧
      stim.netColors.getD 2 "" = stim.color ∧
      stim.netColors.getD 5 "" = stim.backColor := by
  unfold generateStimulus at h
  simp only [Option.bind_eq_bind', Option.bind_eq_some, Option.pure_def,
    Option.some.injEq, Prod.mk.injEq] at h
  obtain ⟨⟨t0, tpA⟩, hd0, h⟩ := h
  obtain ⟨⟨backColor, tpB⟩, hbc, h⟩ := h
  obtain ⟨⟨net0, tpC⟩, hnet, h⟩ := h
  obtain ⟨⟨shape0, tpD⟩, hsh0, h⟩ := h
  obtain ⟨⟨shape1, tpE⟩, hsh1, h⟩ := h
  obtain ⟨⟨size, tpF⟩, hsz, h⟩ := h
  obtain ⟨⟨position, tpG⟩, hpos, h⟩ := h
  obtain ⟨⟨observerPos, tpH⟩, hobs, h⟩ := h
  obtain ⟨⟨stroopText, tpI⟩, hstro, h⟩ := h
  obtain ⟨⟨tInk, tpJ⟩, hink, hstim, hrest⟩ := h
  have hne := pickBackColor_ne (COLORS.getD (t0 % COLORS.length) "")
    tpA backColor tpB hbc
  have hlen := drawColorList_length 6 tpB net0 tpC hnet
  rw [← hstim]
  dsimp only
  obtain ⟨a0, a1, a2, a3, a4, a5, hnil⟩ :
      ∃ a0 a1 a2 a3 a4 a5, net0 = [a0, a1, a2, a3, a4, a5] := by
    cases net0 with
    | nil => simp at hlen
    | cons a0 l0 =>
      cases l0 with
      | nil => simp at hlen
      | cons a1 l1 =>
        cases l1 with
        | nil => simp at hlen
        | cons a2 l2 =>
          cases l2 with
          | nil => simp at hlen
          | cons a3 l3 =>
            cases l3 with
            | nil => simp at hlen
            | cons a4 l4 =>
              cases l4 with
              | nil => simp at hlen
              | cons a5 l5 =>
                cases l5 with
                | nil => exact ⟨a0, a1, a2, a3, a4, a5, rfl⟩
                | cons a6 l6 => simp at hlen
  rw [hnil]
  refine ⟨hne, rfl, rfl, rfl⟩

/-- A state whose next stimulus draws front color "red" and back color
"blue". -/
def stimGenTape : List Nat := [0, 1, 0, 0, 0, 0, 0, 0, 0, 0, 0]

theorem generateStimulus_invariants_witness :
    ((generateStimulus stroopRunState 5 stimGenTape).getD
        (default, [])).1.backColor ≠
      ((generateStimulus stroopRunState 5 stimGenTape).getD
        (default, [])).1.color ∧
    ((generateStimulus stroopRunState 5 stimGenTape).getD
        (default, [])).1.netColors.length = 6 ∧
    ((generateStimulus stroopRunState 5 stimGenTape).getD
        (default, [])).1.netColors.getD 2 "" =
      ((generateStimulus stroopRunState 5 stimGenTape).getD
        (default, [])).1.color ∧
    ((generateStimulus stroopRunState 5 stimGenTape).getD
        (default, [])).1.netColors.getD 5 "" =
      ((generateStimulus stroopRunState 5 stimGenTape).getD
        (default, [])).1.backColor :=
  generateStimulus_invariants stroopRunState 5 stimGenTape
    ((generateStimulus stroopRunState 5 stimGenTape).getD (default, [])).2
    ((generateStimulus stroopRunState 5 stimGenTape).getD (default, [])).1
    rfl

/-- C9 amended: when start is requested with an empty active-rule set
and spatial perspective is NOT active, the start is refused: the
"Select Rules First!" feedback is flashed and nothing else changes —
`isPlaying`, score, counters and history all keep their values.  (With
spatial perspective active the empty set is first replaced by
`["color"]` and the start proceeds; see the counterexample.) -/
theorem startGame_empty_refused (m : PerspMapping) (now : Int)
    (tape : List Nat) (s : GameState) (he : s.activeRules = [])
    (hns : ¬(s.perspectiveMode = true ∧ s.perspectiveType = "spatial")) :
    startGame m now tape s =
      some (flashFeedback "Select Rules First!" "text-red-500" s, tape) ∧
    (flashFeedback "Select Rules First!" "text-red-500" s).isPlaying =
      s.isPlaying ∧
    (flashFeedback "Select Rules First!" "text-red-500" s).score =
      s.score ∧
    (flashFeedback "Select Rules First!" "text-red-500" s).totalTurns =
      s.totalTurns ∧
    (flashFeedback "Select Rules First!" "text-red-500"
      s).totalMistakes = s.totalMistakes ∧
    (flashFeedback "Select Rules First!" "text-red-500"
      s).stimulusHistory = s.stimulusHistory ∧
    (flashFeedback "Select Rules First!" "text-red-500"
      s).hasResponded = s.hasResponded := by
  refine ⟨?_, rfl, rfl, rfl, rfl, rfl, rfl⟩
  unfold startGame
  rw [if_neg hns]
  rw [if_pos (by rw [he]; rfl)]

/-- An idle state with no rules selected and symbolic perspective. -/
def emptyRulesState : GameState :=
  { activeRules := [], useTimer := false, autoProgress := false }

theorem startGame_empty_refused_witness :
    startGame [] 0 [] emptyRulesState =
      some (flashFeedback "Select Rules First!" "text-red-500"
        emptyRulesState, []) ∧
    (flashFeedback "Select Rules First!" "text-red-500"
      emptyRulesState).isPlaying = emptyRulesState.isPlaying :=
  ⟨(startGame_empty_refused [] 0 [] emptyRulesState rfl
      (by intro hc; exact absurd hc.2 (by decide))).1,
   (startGame_empty_refused [] 0 [] emptyRulesState rfl
      (by intro hc; exact absurd hc.2 (by decide))).2.1⟩

/-- An idle state with no rules selected but spatial perspective on. -/
def emptyRulesSpatialState : GameState :=
  { activeRules := [], perspectiveMode := true,
    perspectiveType := "spatial", useTimer := false, autoProgress := false }

/-- C9 counterexample: with spatial perspective active, a start request
with an empty active-rule set is NOT refused — the sanitation first
replaces the empty set by `["color"]` and the session starts
(`isPlaying` becomes true, history grows), refuting "whenever start is
requested with an empty active-rule set, the start transition is
refused". -/
theorem startGame_empty_spatial_starts :
    emptyRulesSpatialState.activeRules = [] ∧
    emptyRulesSpatialState.isPlaying = false ∧
    ((startGame [] 0 spatialStartTape emptyRulesSpatialState).map
      fun p => (p.1.isPlaying, p.1.activeRules,
        p.1.stimulusHistory.length)) = some (true, ["color"], 1) := by
  refine ⟨rfl, rfl, ?_⟩
  decide

/-- C10: when a session ends with zero turns, the final accuracy is
computed as 0 (no 0/0 division) and `saveHistory` returns without
persisting a record, both directly and through `endGame`. -/
theorem endGame_zero_turns (timedOut : Bool) (d fd : String)
    (hist : List GameHistory) (s : GameState) (h : s.totalTurns = 0) :
    endGameAccuracy s = 0 ∧ saveHistory d fd hist s = hist ∧
      (endGame timedOut d fd hist s).2 = hist := by
  have hacc : endGameAccuracy s = 0 := by
    unfold endGameAccuracy
    rw [if_neg (by omega)]
  have hsave : ∀ s' : GameState, s'.totalTurns = 0 →
      saveHistory d fd hist s' = hist := by
    intro s' h'
    unfold saveHistory
    rw [if_pos h']
  refine ⟨hacc, hsave s h, ?_⟩
  unfold endGame
  dsimp only
  split_ifs with h1 h2 h3 <;> first | rfl | (exact hsave _ h)

/-- A freshly configured session that never advanced a turn. -/
def zeroTurnState : GameState := { useTimer := true, autoProgress := true }

/-- A nonempty pre-existing history log. -/
def oneEntryLog : List GameHistory :=
  [{ date := "1/1 0:00", fullDate := "1/1/2026, 0:00:00", score := 10,
     accuracy := 50, maxNBack := 1, perspectiveMode := false,
     perspectiveType := "symbolic", activeRules := ["color"] }]

theorem endGame_zero_turns_witness :
    endGameAccuracy zeroTurnState = 0 ∧
    saveHistory "d" "fd" oneEntryLog zeroTurnState = oneEntryLog ∧
    (endGame true "d" "fd" oneEntryLog zeroTurnState).2 = oneEntryLog :=
  endGame_zero_turns true "d" "fd" oneEntryLog zeroTurnState rfl

end RrtFluency3d
